import Mathlib

/-!
Shallow embedding of `BSC_Draft1.py` (Balanced Scorecard record keeper).

The SQLite table `kpis` is modelled as an insertion-ordered `List Row`
(the auto-increment id is the list position).  Real numbers are modelled
as `ℚ`, and Python's `round(x, 2)` as round-half-to-even at two decimal
places.  The fallible operations return `Except`/`Option` values, and the
update operation returns the new store paired with the reported outcome
(the Python code prints the not-found message and returns).
-/

/-- The module-level `PERSPECTIVES` list of `BSC_Draft1.py` (line 5). -/
def PERSPECTIVES : List String :=
  ["Financial", "Customer", "Internal Processes", "Learning & Growth"]

/-- Round-half-to-even to the nearest integer: the tie-breaking rule of
Python's built-in `round`. -/
def roundHalfEven (x : ℚ) : ℤ :=
  let f : ℤ := ⌊x⌋
  let frac : ℚ := x - f
  if frac < 1/2 then f
  else if 1/2 < frac then f + 1
  else if f % 2 = 0 then f else f + 1

/-- Python's `round(x, 2)`: round half to even at two decimal places. -/
def round2 (x : ℚ) : ℚ := (roundHalfEven (x * 100) : ℚ) / 100

/-- `KPI.calculate_score` (line 24):
`round((self.actual / self.target) * 100 if self.target else 0, 2)`.
A Python float is truthy exactly when it is nonzero. -/
def calculate_score (target actual : ℚ) : ℚ :=
  round2 (if target ≠ 0 then actual / target * 100 else 0)

/-- The `KPI` object (lines 15-24): name, target, actual, weight and the
derived score. -/
structure KPI where
  name : String
  target : ℚ
  actual : ℚ
  weight : ℚ
  score : ℚ
  deriving DecidableEq, Repr

/-- `KPI.__init__` (lines 16-21): stores the arguments and computes
`score` via `calculate_score`. -/
def KPI.init (name : String) (target actual weight : ℚ) : KPI :=
  { name := name, target := target, actual := actual, weight := weight,
    score := calculate_score target actual }

/-- One row of the `kpis` table (columns of lines 34-43, without the
auto-increment id, which is the position in the list). -/
structure Row where
  perspective : String
  name : String
  target : ℚ
  actual : ℚ
  weight : ℚ
  score : ℚ
  deriving DecidableEq, Repr

/-- The `SELECT 1 FROM kpis WHERE perspective = ? AND name = ?` existence
check used at lines 48 and 68. -/
def existsKpi (db : List Row) (p n : String) : Bool :=
  db.any (fun r => r.perspective == p && r.name == n)

namespace DatabaseManager

/-- `DatabaseManager.add_kpi` (lines 67-76): raises `ValueError` if a row
with the same (perspective, name) exists, otherwise `INSERT`s a new row
carrying the KPI's fields. -/
def add_kpi (db : List Row) (p : String) (kpi : KPI) :
    Except String (List Row) :=
  if existsKpi db p kpi.name then
    Except.error "A KPI with this name already exists in this perspective"
  else
    Except.ok (db ++ [Row.mk p kpi.name kpi.target kpi.actual kpi.weight kpi.score])

/-- The inline score recomputation of `update_kpi` (line 52):
`round((new_actual / new_target) * 100 if new_target else 0, 2)`. -/
def update_score (new_target new_actual : ℚ) : ℚ :=
  round2 (if new_target ≠ 0 then new_actual / new_target * 100 else 0)

/-- Outcome reported by `update_kpi`: the not-found message is printed
(not raised), otherwise the `UPDATE` is executed. -/
inductive UpdateOutcome where
  | notFound
  | updated
  deriving DecidableEq, Repr

/-- `DatabaseManager.update_kpi` (lines 47-58): if no row matches, report
not-found and leave the table as is; otherwise `UPDATE ... SET target,
actual, score WHERE perspective = ? AND name = ?`. -/
def update_kpi (db : List Row) (p n : String) (new_target new_actual : ℚ) :
    List Row × UpdateOutcome :=
  if existsKpi db p n then
    (db.map (fun r =>
      if r.perspective == p && r.name == n then
        { r with target := new_target, actual := new_actual, score := update_score new_target new_actual }
      else r), UpdateOutcome.updated)
  else
    (db, UpdateOutcome.notFound)

/-- `DatabaseManager.delete_kpi` (lines 60-65):
`DELETE FROM kpis WHERE perspective = ? AND name = ?`. -/
def delete_kpi (db : List Row) (p n : String) : List Row :=
  db.filter (fun r => !(r.perspective == p && r.name == n))

/-- A row of the grouped report: the
`{"KPI": ..., "Target": ..., "Actual": ..., "Score": ...}` dict built at
line 83. -/
structure ReportEntry where
  name : String
  target : ℚ
  actual : ℚ
  score : ℚ
  deriving DecidableEq, Repr

/-- The report entry built from a fetched row (line 83). -/
def toEntry (r : Row) : ReportEntry :=
  { name := r.name, target := r.target, actual := r.actual, score := r.score }

/-- `grouped[row[0]].append(...)` (line 83): append the entry to the group
keyed by the row's perspective; `none` models the `KeyError` raised when
the key is absent. -/
def appendToGroup (g : List (String × List ReportEntry)) (p : String)
    (e : ReportEntry) : Option (List (String × List ReportEntry)) :=
  match g with
  | [] => none
  | (k, es) :: rest =>
    if k == p then some ((k, es ++ [e]) :: rest)
    else (appendToGroup rest p e).map (fun g' => (k, es) :: g')

/-- The `for row in rows` loop of lines 82-83; a `none` from any append
(the `KeyError`) aborts the whole listing. -/
def insertRows (g : List (String × List ReportEntry)) (rows : List Row) :
    Option (List (String × List ReportEntry)) :=
  match rows with
  | [] => some g
  | r :: rest => (appendToGroup g r.perspective (toEntry r)).bind (fun g' => insertRows g' rest)

/-- `DatabaseManager.get_kpis_by_perspective` (lines 78-84): start from
`{perspective: [] for perspective in PERSPECTIVES}` and append every
fetched row to its perspective's list; `none` models the `KeyError`
escaping when a row's perspective is not a dict key. -/
def get_kpis_by_perspective (db : List Row) :
    Option (List (String × List ReportEntry)) :=
  insertRows (PERSPECTIVES.map (fun p => (p, []))) db

end DatabaseManager

namespace BalancedScorecard

/-- `BalancedScorecard.add_kpi` (lines 90-92): builds the `KPI` object and
hands it to the store.  Note: no perspective check appears here. -/
def add_kpi (db : List Row) (p n : String) (target actual weight : ℚ) :
    Except String (List Row) :=
  DatabaseManager.add_kpi db p (KPI.init n target actual weight)

/-- `BalancedScorecard.edit_kpi` (lines 106-107): delegates to the store. -/
def edit_kpi (db : List Row) (p n : String) (new_target new_actual : ℚ) :
    List Row × DatabaseManager.UpdateOutcome :=
  DatabaseManager.update_kpi db p n new_target new_actual

/-- `BalancedScorecard.delete_kpi` (lines 109-110): delegates to the store. -/
def delete_kpi (db : List Row) (p n : String) : List Row :=
  DatabaseManager.delete_kpi db p n

end BalancedScorecard

/-- Number of stored rows matching a (perspective, name) pair. -/
def countPair (db : List Row) (p n : String) : Nat :=
  (db.filter (fun r => r.perspective == p && r.name == n)).length

/-- The grouped entries a canonical-perspective store should produce for
one perspective: its rows in insertion order, projected to report fields. -/
def canonEntries (db : List Row) (p : String) : List DatabaseManager.ReportEntry :=
  (db.filter (fun r => r.perspective == p)).map DatabaseManager.toEntry

/-! ## Helper lemmas -/

theorem existsKpi_false_iff (db : List Row) (p n : String) :
    existsKpi db p n = false ↔ ∀ r ∈ db, ¬(r.perspective = p ∧ r.name = n) := by
  simp [existsKpi]

theorem countPair_eq_zero (db : List Row) (p n : String)
    (h : existsKpi db p n = false) : countPair db p n = 0 := by
  unfold countPair
  rw [List.length_eq_zero, List.filter_eq_nil_iff]
  intro r hr
  have := (existsKpi_false_iff db p n).mp h r hr
  simpa using this

theorem round2_zero : round2 0 = 0 := by
  norm_num [round2, roundHalfEven]

/-- Claim C1: the scoring rule is the pure function
`score(target, actual) = round(actual / target * 100, 2)` when the target
is nonzero and `0` when the target is zero, and this is exactly the score
the service-level add operation stores with the new record. -/
theorem c1_score_rule (t a w : ℚ) (n p : String) (db : List Row)
    (h : existsKpi db p n = false) :
    calculate_score t a = (if t = 0 then 0 else round2 (a / t * 100)) ∧
    BalancedScorecard.add_kpi db p n t a w =
      Except.ok (db ++ [Row.mk p n t a w (calculate_score t a)]) := by
  constructor
  · unfold calculate_score
    by_cases ht : t = 0
    · simp [ht, round2_zero]
    · simp [ht]
  · unfold BalancedScorecard.add_kpi DatabaseManager.add_kpi KPI.init
    simp [h]

theorem c1_witness :
    BalancedScorecard.add_kpi [] "Financial" "Rev" 100 80 1 =
      Except.ok [Row.mk "Financial" "Rev" 100 80 1 (calculate_score 100 80)] :=
  (c1_score_rule 100 80 1 "Rev" "Financial" [] (by decide)).2

/-- Claim C2 counterexample: the perspective "Bogus" is not one of the
four recognized labels, yet the service-level add succeeds and the store
grows to one record — no error is raised and a mutation occurs. -/
theorem c2_counterexample :
    ("Bogus" ∉ PERSPECTIVES) ∧
    (BalancedScorecard.add_kpi [] "Bogus" "X" 10 5 1).toOption.map List.length = some 1 :=
  ⟨by decide, rfl⟩

/-- Claim C2 (amended): the service-level add performs no perspective
validation.  For any perspective argument, even one outside the four
recognized labels, the add succeeds and inserts the record whenever no
(perspective, name) duplicate exists. -/
theorem c2_no_validation (db : List Row) (p n : String) (t a w : ℚ)
    (_hp : p ∉ PERSPECTIVES) (h : existsKpi db p n = false) :
    BalancedScorecard.add_kpi db p n t a w =
      Except.ok (db ++ [Row.mk p n t a w (calculate_score t a)]) := by
  unfold BalancedScorecard.add_kpi DatabaseManager.add_kpi KPI.init
  simp [h]

theorem c2_witness :
    BalancedScorecard.add_kpi [] "Bogus" "X" 10 5 1 =
      Except.ok [Row.mk "Bogus" "X" 10 5 1 (calculate_score 10 5)] :=
  c2_no_validation [] "Bogus" "X" 10 5 1 (by decide) (by decide)

/-- Claim C3: after a successful add of a (perspective, name) pair, a
second add of the same pair fails with the duplicate error, and the store
retains exactly one record for that pair; the failing add returns only
the error, never a new store. -/
theorem c3_duplicate (db db' : List Row) (p n : String) (k k' : KPI)
    (hk : k.name = n) (hk' : k'.name = n)
    (h : DatabaseManager.add_kpi db p k = Except.ok db') :
    (∃ msg, DatabaseManager.add_kpi db' p k' = Except.error msg) ∧
    countPair db' p n = 1 := by
  unfold DatabaseManager.add_kpi at h
  by_cases hex : existsKpi db p k.name
  · simp [hex] at h
  · simp [hex] at h
    subst h
    have hrow : existsKpi (db ++ [Row.mk p k.name k.target k.actual k.weight k.score]) p k'.name = true := by
      simp [existsKpi, hk, hk']
    constructor
    · exact ⟨ "A KPI with this name already exists in this perspective", by
        unfold DatabaseManager.add_kpi
        simp [hrow]⟩
    · unfold countPair
      rw [List.filter_append]
      have hex' : existsKpi db p n = false := by
        rw [← hk]
        exact Bool.eq_false_iff.mpr hex
      have h0 : countPair db p n = 0 := countPair_eq_zero db p n hex'
      unfold countPair at h0
      simp [List.length_append, h0, hk]

theorem c3_witness :
    (∃ msg, DatabaseManager.add_kpi [Row.mk "Financial" "Rev" 100 80 1 80] "Financial" (KPI.mk "Rev" 100 70 1 70) = Except.error msg) ∧
    countPair [Row.mk "Financial" "Rev" 100 80 1 80] "Financial" "Rev" = 1 :=
  c3_duplicate [] [Row.mk "Financial" "Rev" 100 80 1 80] "Financial" "Rev"
    (KPI.mk "Rev" 100 80 1 80) (KPI.mk "Rev" 100 70 1 70) rfl rfl rfl

/-- Claim C4: updating a (perspective, name) pair with no matching
record reports the not-found outcome (the reported, non-raised path) and
returns the store completely unchanged. -/
theorem c4_update_not_found (db : List Row) (p n : String) (t a : ℚ)
    (h : existsKpi db p n = false) :
    DatabaseManager.update_kpi db p n t a = (db, DatabaseManager.UpdateOutcome.notFound) := by
  simp [DatabaseManager.update_kpi, h]

theorem c4_witness :
    DatabaseManager.update_kpi [] "Customer" "NPS" 50 40 = ([], DatabaseManager.UpdateOutcome.notFound) :=
  c4_update_not_found [] "Customer" "NPS" 50 40 (by decide)

/-- Claim C8: the scoring rule is applied identically on create and on
update — the formula inlined in the update operation computes exactly
`KPI.calculate_score` of the new target and actual. -/
theorem c8_same_rule (t a : ℚ) :
    DatabaseManager.update_score t a = calculate_score t a := rfl

/-- Claim C5: a successful update overwrites only target, actual and
score (the score recomputed by the scoring rule from the new target and
actual) on the matching record; its name, perspective and weight are
untouched, and every other record of the store is unchanged in place. -/
theorem c5_update_found (db : List Row) (p n : String) (t a : ℚ)
    (h : existsKpi db p n = true) :
    (DatabaseManager.update_kpi db p n t a).2 = DatabaseManager.UpdateOutcome.updated ∧
    (DatabaseManager.update_kpi db p n t a).1.length = db.length ∧
    ∀ i : Fin db.length, ∃ hi : i.val < (DatabaseManager.update_kpi db p n t a).1.length,
      (¬((db.get i).perspective = p ∧ (db.get i).name = n) →
        (DatabaseManager.update_kpi db p n t a).1.get ⟨i.val, hi⟩ = db.get i) ∧
      (((db.get i).perspective = p ∧ (db.get i).name = n) →
        (DatabaseManager.update_kpi db p n t a).1.get ⟨i.val, hi⟩ =
          { db.get i with target := t, actual := a, score := calculate_score t a }) := by
  have hres : DatabaseManager.update_kpi db p n t a =
      (db.map (fun r =>
        if r.perspective == p && r.name == n then
          { r with target := t, actual := a, score := DatabaseManager.update_score t a }
        else r), DatabaseManager.UpdateOutcome.updated) := by
    unfold DatabaseManager.update_kpi
    rw [h]
    rfl
  rw [hres]
  refine ⟨rfl, by simp, ?_⟩
  intro i
  have hi : i.val < (db.map (fun r =>
      if r.perspective == p && r.name == n then
        { r with target := t, actual := a, score := DatabaseManager.update_score t a }
      else r)).length := by simp
  refine ⟨hi, ?_, ?_⟩
  · intro hne
    simp only [List.get_eq_getElem] at hne ⊢
    simp only [List.getElem_map]
    rw [if_neg (by simp only [Bool.and_eq_true, beq_iff_eq]; exact hne)]
  · intro heq
    simp only [List.get_eq_getElem] at heq ⊢
    simp only [List.getElem_map]
    rw [if_pos (by simp [heq.1, heq.2])]
    rfl

theorem c5_witness :
    (DatabaseManager.update_kpi [Row.mk "Customer" "NPS" 50 25 1 50] "Customer" "NPS" 50 45).2 = DatabaseManager.UpdateOutcome.updated ∧
    (DatabaseManager.update_kpi [Row.mk "Customer" "NPS" 50 25 1 50] "Customer" "NPS" 50 45).1.length = [Row.mk "Customer" "NPS" 50 25 1 50].length ∧
    ∀ i : Fin [Row.mk "Customer" "NPS" 50 25 1 50].length,
      ∃ hi : i.val < (DatabaseManager.update_kpi [Row.mk "Customer" "NPS" 50 25 1 50] "Customer" "NPS" 50 45).1.length,
      (¬(([Row.mk "Customer" "NPS" 50 25 1 50].get i).perspective = "Customer" ∧ ([Row.mk "Customer" "NPS" 50 25 1 50].get i).name = "NPS") →
        (DatabaseManager.update_kpi [Row.mk "Customer" "NPS" 50 25 1 50] "Customer" "NPS" 50 45).1.get ⟨i.val, hi⟩ = [Row.mk "Customer" "NPS" 50 25 1 50].get i) ∧
      ((([Row.mk "Customer" "NPS" 50 25 1 50].get i).perspective = "Customer" ∧ ([Row.mk "Customer" "NPS" 50 25 1 50].get i).name = "NPS") →
        (DatabaseManager.update_kpi [Row.mk "Customer" "NPS" 50 25 1 50] "Customer" "NPS" 50 45).1.get ⟨i.val, hi⟩ =
          { [Row.mk "Customer" "NPS" 50 25 1 50].get i with target := 50, actual := 45, score := calculate_score 50 45 }) :=
  c5_update_found [Row.mk "Customer" "NPS" 50 25 1 50] "Customer" "NPS" 50 45 (by decide)

/-- Claim C6: delete is idempotent and has no error path — deleting a
pair with no matching record is a no-op that leaves the store unchanged,
and deleting twice yields the same store as deleting once. -/
theorem c6_delete_idempotent (db : List Row) (p n : String) :
    (existsKpi db p n = false → BalancedScorecard.delete_kpi db p n = db) ∧
    BalancedScorecard.delete_kpi (BalancedScorecard.delete_kpi db p n) p n =
      BalancedScorecard.delete_kpi db p n := by
  constructor
  · intro h
    unfold BalancedScorecard.delete_kpi DatabaseManager.delete_kpi
    rw [List.filter_eq_self]
    intro r hr
    have := (existsKpi_false_iff db p n).mp h r hr
    simp only [Bool.not_eq_true']
    simp only [Bool.and_eq_false_iff, beq_eq_false_iff_ne, ne_eq]
    rcases Decidable.not_and_iff_or_not.mp this with h1 | h1
    · exact Or.inl h1
    · exact Or.inr h1
  · unfold BalancedScorecard.delete_kpi DatabaseManager.delete_kpi
    rw [List.filter_filter]
    apply List.filter_congr
    intro r hr
    simp [Bool.and_self]

theorem c6_witness :
    (existsKpi [] "Learning & Growth" "Nonexistent" = false →
      BalancedScorecard.delete_kpi [] "Learning & Growth" "Nonexistent" = []) ∧
    BalancedScorecard.delete_kpi
        (BalancedScorecard.delete_kpi [] "Learning & Growth" "Nonexistent")
        "Learning & Growth" "Nonexistent" =
      BalancedScorecard.delete_kpi [] "Learning & Growth" "Nonexistent" :=
  c6_delete_idempotent [] "Learning & Growth" "Nonexistent"

/-- Claim C9: weight does not influence the score — two adds identical
except for the weight argument both succeed and store records identical
in every field except weight; in particular the stored scores agree. -/
theorem c9_weight_not_in_score (db : List Row) (p n : String) (t a w1 w2 : ℚ)
    (h : existsKpi db p n = false) :
    BalancedScorecard.add_kpi db p n t a w1 =
      Except.ok (db ++ [Row.mk p n t a w1 (calculate_score t a)]) ∧
    BalancedScorecard.add_kpi db p n t a w2 =
      Except.ok (db ++ [Row.mk p n t a w2 (calculate_score t a)]) ∧
    Row.mk p n t a w1 (calculate_score t a) =
      { Row.mk p n t a w2 (calculate_score t a) with weight := w1 } := by
  refine ⟨?_, ?_, rfl⟩ <;>
    · unfold BalancedScorecard.add_kpi DatabaseManager.add_kpi KPI.init
      simp [h]

theorem c9_witness :
    BalancedScorecard.add_kpi [] "Financial" "Rev" 100 80 1 =
      Except.ok [Row.mk "Financial" "Rev" 100 80 1 (calculate_score 100 80)] ∧
    BalancedScorecard.add_kpi [] "Financial" "Rev" 100 80 7 =
      Except.ok [Row.mk "Financial" "Rev" 100 80 7 (calculate_score 100 80)] ∧
    Row.mk "Financial" "Rev" 100 80 1 (calculate_score 100 80) =
      { Row.mk "Financial" "Rev" 100 80 7 (calculate_score 100 80) with weight := 1 } := by
  exact c9_weight_not_in_score [] "Financial" "Rev" 100 80 1 7 (by decide)

/-! ## Grouping lemmas (C7, C10) -/

theorem appendToGroup_keys (g g' : List (String × List DatabaseManager.ReportEntry))
    (p : String) (e : DatabaseManager.ReportEntry)
    (h : DatabaseManager.appendToGroup g p e = some g') :
    g'.map Prod.fst = g.map Prod.fst := by
  induction g generalizing g' with
  | nil => simp [DatabaseManager.appendToGroup] at h
  | cons ke rest ih =>
    obtain ⟨k, es⟩ := ke
    unfold DatabaseManager.appendToGroup at h
    by_cases hk : k == p
    · rw [if_pos hk] at h
      cases h
      simp
    · rw [if_neg hk] at h
      simp only [Option.map_eq_some'] at h
      obtain ⟨g1, hg1, rfl⟩ := h
      simp [ih g1 hg1]

theorem appendToGroup_not_mem (g : List (String × List DatabaseManager.ReportEntry))
    (p : String) (e : DatabaseManager.ReportEntry)
    (h : p ∉ g.map Prod.fst) :
    DatabaseManager.appendToGroup g p e = none := by
  induction g with
  | nil => rfl
  | cons ke rest ih =>
    obtain ⟨k, es⟩ := ke
    simp only [List.map_cons, List.mem_cons, not_or] at h
    unfold DatabaseManager.appendToGroup
    rw [if_neg (by simp; exact fun hkp => h.1 hkp.symm)]
    rw [ih h.2]
    rfl

theorem appendToGroup_nodup (g : List (String × List DatabaseManager.ReportEntry))
    (p : String) (e : DatabaseManager.ReportEntry)
    (hnd : (g.map Prod.fst).Nodup) (hp : p ∈ g.map Prod.fst) :
    DatabaseManager.appendToGroup g p e =
      some (g.map (fun ke => if ke.1 = p then (ke.1, ke.2 ++ [e]) else ke)) := by
  induction g with
  | nil => simp at hp
  | cons ke rest ih =>
    obtain ⟨k, es⟩ := ke
    simp only [List.map_cons, List.nodup_cons] at hnd
    simp only [List.map_cons, List.mem_cons] at hp
    unfold DatabaseManager.appendToGroup
    by_cases hk : k = p
    · rw [if_pos (by simp [hk])]
      simp only [List.map_cons]
      rw [if_pos hk]
      have hrest : rest.map (fun ke => if ke.1 = p then (ke.1, ke.2 ++ [e]) else ke) = rest := by
        conv_rhs => rw [← List.map_id rest]
        apply List.map_congr_left
        intro x hx
        simp only [id]
        rw [if_neg]
        intro hxp
        exact hnd.1 (by rw [hk, ← hxp]; exact List.mem_map_of_mem Prod.fst hx)
      rw [hrest]
    · rw [if_neg (by simp [hk])]
      have hp' : p ∈ rest.map Prod.fst := by
        rcases hp with h1 | h1
        · exact absurd h1.symm hk
        · exact h1
      rw [ih hnd.2 hp']
      simp only [Option.map_some', List.map_cons]
      rw [if_neg hk]

theorem insertRows_spec (rows : List Row) :
    ∀ g : List (String × List DatabaseManager.ReportEntry),
    (g.map Prod.fst).Nodup → (∀ r ∈ rows, r.perspective ∈ g.map Prod.fst) →
    DatabaseManager.insertRows g rows =
      some (g.map (fun ke => (ke.1, ke.2 ++ canonEntries rows ke.1))) := by
  induction rows with
  | nil =>
    intro g hnd hmem
    unfold DatabaseManager.insertRows
    simp [canonEntries]
  | cons r rest ih =>
    intro g hnd hmem
    unfold DatabaseManager.insertRows
    have hr : r.perspective ∈ g.map Prod.fst := hmem r (List.mem_cons_self r rest)
    rw [appendToGroup_nodup g r.perspective (DatabaseManager.toEntry r) hnd hr]
    rw [Option.some_bind]
    have hkeys : ((g.map (fun ke => if ke.1 = r.perspective then (ke.1, ke.2 ++ [DatabaseManager.toEntry r]) else ke)).map Prod.fst) = g.map Prod.fst := by
      rw [List.map_map]
      apply List.map_congr_left
      intro x hx
      by_cases hxp : x.1 = r.perspective <;> simp [hxp]
    rw [ih _ (by rw [hkeys]; exact hnd)
      (by rw [hkeys]; intro r' hr'; exact hmem r' (List.mem_cons_of_mem r hr'))]
    congr 1
    rw [List.map_map]
    apply List.map_congr_left
    intro x hx
    by_cases hxp : x.1 = r.perspective
    · simp [canonEntries, List.filter_cons, hxp, List.append_assoc]
    · simp [canonEntries, List.filter_cons, hxp, Ne.symm hxp]

/-- Claim C7 (amended): for every store state in which every record's
perspective is one of the four canonical labels, the grouped listing
returns the mapping whose keys are exactly the four canonical labels in
canonical order, an empty perspective mapping to the empty sequence, and
every record appearing under its own perspective with fields name,
target, actual and score in insertion order. -/
theorem c7_grouping (db : List Row)
    (h : ∀ r ∈ db, r.perspective ∈ PERSPECTIVES) :
    DatabaseManager.get_kpis_by_perspective db =
      some (PERSPECTIVES.map (fun p => (p, canonEntries db p))) := by
  unfold DatabaseManager.get_kpis_by_perspective
  have hkeys : ((PERSPECTIVES.map (fun p => (p, ([] : List DatabaseManager.ReportEntry)))).map Prod.fst) = PERSPECTIVES := by
    decide
  rw [insertRows_spec db _ (by rw [hkeys]; decide)
    (by rw [hkeys]; exact h)]
  rw [List.map_map]
  refine congrArg some ?_
  apply List.map_congr_left
  intro p hp
  simp

/-- Claim C7 counterexample: a store holding one record with the
non-canonical perspective "Unknown" is a state on which the grouped
listing fails (the `KeyError`) instead of returning the four-key
mapping, so the listing does not succeed on every store state. -/
theorem c7_counterexample :
    DatabaseManager.get_kpis_by_perspective [Row.mk "Unknown" "X" 1 1 1 100] = none := rfl

theorem c7_witness :
    DatabaseManager.get_kpis_by_perspective [Row.mk "Financial" "Rev" 100 80 1 80] =
      some (PERSPECTIVES.map (fun p => (p, canonEntries [Row.mk "Financial" "Rev" 100 80 1 80] p))) :=
  c7_grouping [Row.mk "Financial" "Rev" 100 80 1 80] (by decide)

theorem insertRows_perspectives (rows : List Row) :
    ∀ (g res : List (String × List DatabaseManager.ReportEntry)),
    DatabaseManager.insertRows g rows = some res →
    ∀ r ∈ rows, r.perspective ∈ g.map Prod.fst := by
  induction rows with
  | nil => intro g res _ r hr; simp at hr
  | cons r0 rest ih =>
    intro g res hins r hr
    unfold DatabaseManager.insertRows at hins
    cases happ : DatabaseManager.appendToGroup g r0.perspective (DatabaseManager.toEntry r0) with
    | none => rw [happ] at hins; simp at hins
    | some g1 =>
      rw [happ] at hins
      rw [Option.some_bind] at hins
      rcases List.mem_cons.mp hr with h1 | h1
      · subst h1
        by_contra hnm
        rw [appendToGroup_not_mem g r.perspective (DatabaseManager.toEntry r) hnm] at happ
        exact Option.noConfusion happ
      · have := ih g1 res hins r h1
        rwa [appendToGroup_keys g g1 r0.perspective (DatabaseManager.toEntry r0) happ] at this

/-- Claim C10: if the store contains a record whose perspective is not
among the four canonical labels (a state reachable because no add path
validates the perspective), the grouped listing fails with the `KeyError`
instead of returning a mapping. -/
theorem c10_keyerror (db : List Row) (r : Row) (hr : r ∈ db)
    (hbad : r.perspective ∉ PERSPECTIVES) :
    DatabaseManager.get_kpis_by_perspective db = none := by
  unfold DatabaseManager.get_kpis_by_perspective
  cases hins : DatabaseManager.insertRows (PERSPECTIVES.map (fun p => (p, []))) db with
  | none => rfl
  | some res =>
    exfalso
    have := insertRows_perspectives db _ res hins r hr
    rw [List.map_map] at this
    simp at this
    exact hbad this

theorem c10_witness :
    DatabaseManager.get_kpis_by_perspective [Row.mk "Bogus" "X" 1 1 1 100] = none :=
  c10_keyerror [Row.mk "Bogus" "X" 1 1 1 100] (Row.mk "Bogus" "X" 1 1 1 100)
    (List.mem_singleton.mpr rfl) (by decide)
